import Mathlib

/-!
Verification of the LHLO-to-parallel-loops legalization pass
(`lhlo_legalize_to_parallel_loops.cc`).

The development shallowly embeds the pass: the IR values the pass emits are
modelled as inductive data (bounds, index values, diagnostics, emitted
operations), buffers are identifiers paired with shapes, and the rewrite
patterns become total Lean functions from the modelled source operations to
the modelled emitted structures.  Machine `index`-typed arithmetic of the
emitted code (`muli`/`subi`/`addi`/`cmpi ult`) is modelled on `Nat` residues
modulo `2 ^ 64` with explicit wraparound.
-/

/-- The `ShapedType::kDynamicSize` sentinel used by MLIR memref shapes. -/
def kDynamicSize : Int := -1

/-- A loop-bound value emitted by the pass: either a `ConstantIndexOp`
constant or the result of a `DimOp` runtime-extent query on buffer
`buf` at axis `axisIndex`. -/
inductive Bound where
  | const (value : Int)
  | dim (buf : Nat) (axisIndex : Nat)
  deriving DecidableEq, Repr

/-- Embeds `GetStaticOrDynamicDim`: a `ConstantIndexOp` when the static
extent is not the dynamic sentinel, otherwise a `DimOp` query. -/
def GetStaticOrDynamicDim (shapedValue : Nat) (dimIndex : Nat) (dim : Int) :
    Bound :=
  if dim = kDynamicSize then Bound.dim shapedValue dimIndex
  else Bound.const dim

/-- The six bound vectors built by `ReduceOpConverter`:
`parallel_{lower,upper,step}` for kept axes and `reduce_{lower,upper,step}`
for reduced axes. -/
structure BoundLists where
  parallelLower : List Bound
  parallelUpper : List Bound
  parallelStep : List Bound
  reduceLower : List Bound
  reduceUpper : List Bound
  reduceStep : List Bound
  deriving DecidableEq, Repr

/-- Membership of axis `i` in the reducing-dimension set, as tested by the
pass (`reducing_dims.count(dim.index())`). -/
def isReducing (reducingDims : List Int) (i : Nat) : Bool :=
  reducingDims.contains (Int.ofNat i)

/-- One iteration of the dimension-partitioning loop: computes the upper
bound via the resolver, a constant-0 lower bound and a unit step, and pushes
the triple onto the reduce lists when the axis is a reducing dimension and
onto the parallel lists otherwise. -/
def partitionStep (operand : Nat) (reducingDims : List Int)
    (operandShape : List Int) (acc : BoundLists) (dimIndex : Nat) :
    BoundLists :=
  let isReducingDim := isReducing reducingDims dimIndex
  let ub := GetStaticOrDynamicDim operand dimIndex (operandShape.getD dimIndex 0)
  let lb := Bound.const 0
  let step := Bound.const 1
  if isReducingDim then
    { acc with
        reduceLower := acc.reduceLower ++ [lb]
        reduceUpper := acc.reduceUpper ++ [ub]
        reduceStep := acc.reduceStep ++ [step] }
  else
    { acc with
        parallelLower := acc.parallelLower ++ [lb]
        parallelUpper := acc.parallelUpper ++ [ub]
        parallelStep := acc.parallelStep ++ [step] }

/-- Embeds the axis loop of `ReduceOpConverter::CreateReduceOpInNestedParallelLoops`
(lines 161-171): visit the operand axes in increasing order and partition
their bound triples into the kept (parallel) and reduced lists. -/
def partitionDims (operand : Nat) (reducingDims : List Int)
    (operandShape : List Int) : BoundLists :=
  (List.range operandShape.length).foldl
    (partitionStep operand reducingDims operandShape)
    ⟨[], [], [], [], [], []⟩

/-- The axes of `[0, rank)` that are not reducing dimensions, in order. -/
def keptAxes (reducingDims : List Int) (rank : Nat) : List Nat :=
  (List.range rank).filter (fun i => !(isReducing reducingDims i))

/-- The axes of `[0, rank)` that are reducing dimensions, in order. -/
def reducedAxes (reducingDims : List Int) (rank : Nat) : List Nat :=
  (List.range rank).filter (fun i => isReducing reducingDims i)

/-- General shape of the partitioning fold over an arbitrary axis list,
starting from an arbitrary accumulator. -/
lemma partition_foldl (operand : Nat) (reducingDims : List Int)
    (operandShape : List Int) :
    ∀ (axes : List Nat) (acc : BoundLists),
      axes.foldl (partitionStep operand reducingDims operandShape) acc =
        { parallelLower := acc.parallelLower ++
            (axes.filter (fun i => !(isReducing reducingDims i))).map
              (fun _ => Bound.const 0)
          parallelUpper := acc.parallelUpper ++
            (axes.filter (fun i => !(isReducing reducingDims i))).map
              (fun i => GetStaticOrDynamicDim operand i (operandShape.getD i 0))
          parallelStep := acc.parallelStep ++
            (axes.filter (fun i => !(isReducing reducingDims i))).map
              (fun _ => Bound.const 1)
          reduceLower := acc.reduceLower ++
            (axes.filter (fun i => isReducing reducingDims i)).map
              (fun _ => Bound.const 0)
          reduceUpper := acc.reduceUpper ++
            (axes.filter (fun i => isReducing reducingDims i)).map
              (fun i => GetStaticOrDynamicDim operand i (operandShape.getD i 0))
          reduceStep := acc.reduceStep ++
            (axes.filter (fun i => isReducing reducingDims i)).map
              (fun _ => Bound.const 1) } := by
  intro axes
  induction axes with
  | nil => intro acc; simp
  | cons a rest ih =>
    intro acc
    by_cases hmem : isReducing reducingDims a
    · simp only [List.foldl_cons, ih, partitionStep, hmem, if_pos,
        List.filter_cons]
      simp [hmem]
    · have hmem' : isReducing reducingDims a = false := by
        simpa using hmem
      simp only [List.foldl_cons, ih, partitionStep, hmem', if_neg,
        List.filter_cons]
      simp [hmem']

/-- Closed characterization of the partitioner, shared by several results. -/
lemma partitionDims_eq (operand : Nat) (reducingDims : List Int)
    (operandShape : List Int) :
    partitionDims operand reducingDims operandShape =
      { parallelLower := (keptAxes reducingDims operandShape.length).map
          (fun _ => Bound.const 0)
        parallelUpper := (keptAxes reducingDims operandShape.length).map
          (fun i => GetStaticOrDynamicDim operand i (operandShape.getD i 0))
        parallelStep := (keptAxes reducingDims operandShape.length).map
          (fun _ => Bound.const 1)
        reduceLower := (reducedAxes reducingDims operandShape.length).map
          (fun _ => Bound.const 0)
        reduceUpper := (reducedAxes reducingDims operandShape.length).map
          (fun i => GetStaticOrDynamicDim operand i (operandShape.getD i 0))
        reduceStep := (reducedAxes reducingDims operandShape.length).map
          (fun _ => Bound.const 1) } := by
  unfold partitionDims keptAxes reducedAxes
  rw [partition_foldl]
  simp

/-- Claim C8: for every plain reduction the dimension partitioner visits the
axes in increasing order and, per axis, produces a constant-0 lower bound, a
unit step and a resolver-produced upper bound, appending the triple to the
reduced bound lists when the axis is in the reduced set and to the kept
(parallel) bound lists otherwise, preserving the original axis order within
each of the two lists. -/
theorem claim8_partitioner_routes_axis_triples (operand : Nat)
    (reducingDims : List Int) (operandShape : List Int) :
    partitionDims operand reducingDims operandShape =
      { parallelLower := (keptAxes reducingDims operandShape.length).map
          (fun _ => Bound.const 0)
        parallelUpper := (keptAxes reducingDims operandShape.length).map
          (fun i => GetStaticOrDynamicDim operand i (operandShape.getD i 0))
        parallelStep := (keptAxes reducingDims operandShape.length).map
          (fun _ => Bound.const 1)
        reduceLower := (reducedAxes reducingDims operandShape.length).map
          (fun _ => Bound.const 0)
        reduceUpper := (reducedAxes reducingDims operandShape.length).map
          (fun i => GetStaticOrDynamicDim operand i (operandShape.getD i 0))
        reduceStep := (reducedAxes reducingDims operandShape.length).map
          (fun _ => Bound.const 1) } :=
  partitionDims_eq operand reducingDims operandShape

/-- An emitted index value: a synthesized constant, an induction variable of
the outer (kept-axes) parallel loop, or one of the inner (reduced-axes)
parallel loop. -/
inductive IndexVal where
  | constIdx (n : Int)
  | outerIv (k : Nat)
  | innerIv (k : Nat)
  deriving DecidableEq, Repr

/-- Embeds the two-iterator index reconstruction of
`ReduceOpConverter::CreateReduceOpInNestedParallelLoops` (lines 199-207):
walk the axes in order; a reducing axis dereferences and advances the
inner-loop iterator, any other axis the outer-loop iterator.  An iterator
dereference past the end of its sequence yields `none`. -/
def selectIndices {α : Type} (reducingDims : List Int)
    (outerIvs innerIvs : List α) :
    List Nat → Nat → Nat → List (Option α)
  | [], _, _ => []
  | i :: rest, outerCursor, innerCursor =>
    if isReducing reducingDims i then
      innerIvs[innerCursor]? ::
        selectIndices reducingDims outerIvs innerIvs rest outerCursor
          (innerCursor + 1)
    else
      outerIvs[outerCursor]? ::
        selectIndices reducingDims outerIvs innerIvs rest (outerCursor + 1)
          innerCursor

/-- The coordinate reconstruction as the loop performs it, starting both
cursors at zero over the axes `0, ..., rank - 1`. -/
def reconstructIndices {α : Type} (reducingDims : List Int)
    (outerIvs innerIvs : List α) (rank : Nat) : List (Option α) :=
  selectIndices reducingDims outerIvs innerIvs (List.range rank) 0 0

/-- The coordinate the specification assigns to axis `i`: drawn from the
inner sequence at the position given by the number of reduced axes before
`i` when `i` is reduced, and from the outer sequence at the position given
by the number of kept axes before `i` otherwise. -/
def claimIndexAt {α : Type} (reducingDims : List Int)
    (outerIvs innerIvs : List α) (i : Nat) : Option α :=
  if isReducing reducingDims i then
    innerIvs[(List.range i).countP (isReducing reducingDims)]?
  else
    outerIvs[(List.range i).countP (fun j => !(isReducing reducingDims j))]?

/-- Number of reducing axes below `s + 1` in terms of those below `s`. -/
lemma countP_range_succ (p : Nat → Bool) (s : Nat) :
    (List.range (s + 1)).countP p =
      (List.range s).countP p + if p s then 1 else 0 := by
  rw [List.range_succ, List.countP_append]
  simp [List.countP_cons]

/-- The cursor-based traversal over any contiguous axis window agrees with
the per-axis prefix-count specification, provided the cursors start at the
prefix counts. -/
lemma selectIndices_range' {α : Type} (reducingDims : List Int)
    (outerIvs innerIvs : List α) :
    ∀ (n s : Nat),
      selectIndices reducingDims outerIvs innerIvs (List.range' s n)
          ((List.range s).countP (fun j => !(isReducing reducingDims j)))
          ((List.range s).countP (isReducing reducingDims)) =
        (List.range' s n).map (claimIndexAt reducingDims outerIvs innerIvs) := by
  intro n
  induction n with
  | zero => intro s; rfl
  | succ k ih =>
    intro s
    rw [List.range'_succ s k 1]
    by_cases h : isReducing reducingDims s
    · have hin : (List.range s).countP (isReducing reducingDims) + 1 =
          (List.range (s + 1)).countP (isReducing reducingDims) := by
        rw [countP_range_succ]; simp [h]
      have hout : (List.range s).countP (fun j => !(isReducing reducingDims j)) =
          (List.range (s + 1)).countP (fun j => !(isReducing reducingDims j)) := by
        rw [countP_range_succ]; simp [h]
      simp only [selectIndices, h, if_pos, List.map_cons]
      rw [hin, hout, ih (s + 1)]
      simp [claimIndexAt, h]
    · have h' : isReducing reducingDims s = false := by simpa using h
      have hin : (List.range s).countP (isReducing reducingDims) =
          (List.range (s + 1)).countP (isReducing reducingDims) := by
        rw [countP_range_succ]; simp [h']
      have hout : (List.range s).countP (fun j => !(isReducing reducingDims j)) + 1 =
          (List.range (s + 1)).countP (fun j => !(isReducing reducingDims j)) := by
        rw [countP_range_succ]; simp [h']
      simp only [selectIndices, h', Bool.false_eq_true, if_neg, List.map_cons]
      rw [hin, hout, ih (s + 1)]
      simp [claimIndexAt, h']

/-- The reconstruction performed by the loop equals the positional
interleaving specification on every axis. -/
lemma reconstructIndices_eq {α : Type} (reducingDims : List Int)
    (outerIvs innerIvs : List α) (rank : Nat) :
    reconstructIndices reducingDims outerIvs innerIvs rank =
      (List.range rank).map (claimIndexAt reducingDims outerIvs innerIvs) := by
  have h := selectIndices_range' reducingDims outerIvs innerIvs rank 0
  simpa [reconstructIndices, List.range_eq_range'] using h

/-- A buffer value: an identifier plus a memref shape (with `-1` as the
dynamic-extent sentinel). -/
structure Buffer where
  id : Nat
  shape : List Int
  deriving DecidableEq, Repr

/-- Placeholder dereferenced by `*range.begin()` on an empty range. -/
def defaultBuffer : Buffer := ⟨0, []⟩

/-- A scalar operation of the LHLO combinator body: an opaque kind, operand
value ids and result value ids. -/
structure SrcOp (K : Type) where
  kind : K
  operands : List Nat
  results : List Nat
  deriving DecidableEq, Repr

/-- The combinator body block of `xla_lhlo.reduce` / `reduce_window`: three
scalar block parameters (element, accumulator-in, result-out) and its
operation list, whose last operation is the terminator. -/
structure SourceBlock (K : Type) where
  arg0 : Nat
  arg1 : Nat
  arg2 : Nat
  ops : List (SrcOp K)
  deriving DecidableEq, Repr

/-- An operation emitted into the `loop.reduce` reduction-operator block. -/
inductive ROp (K : Type) where
  | alloc (result : Nat)
  | store (value : Nat) (buf : Nat)
  | cloned (kind : K) (operands : List Nat) (results : List Nat)
  | load (result : Nat) (buf : Nat)
  | reduceReturn (value : Nat)
  deriving DecidableEq, Repr

/-- Embeds `BlockAndValueMapping::lookupOrDefault`: the image of `v` under the
mapping when present, `v` itself otherwise.  Newer entries are consed onto
the front, so the head-first search realizes map overriding. -/
def lookupOrSelf (m : List (Nat × Nat)) (v : Nat) : Nat :=
  match m with
  | [] => v
  | (k, w) :: rest => if k = v then w else lookupOrSelf rest v

/-- The clone loop of `ConvertToReductionOperator`: clone each operation
with operands rewritten through the mapping and fresh result ids, then add
the (old result, new result) pairs to the mapping. -/
def cloneOps {K : Type} :
    List (Nat × Nat) → Nat → List (SrcOp K) →
      List (SrcOp K) × List (Nat × Nat) × Nat
  | m, fresh, [] => ([], m, fresh)
  | m, fresh, op :: rest =>
    let newOperands := op.operands.map (lookupOrSelf m)
    let newResults := (List.range op.results.length).map (fun k => fresh + k)
    let r := cloneOps (op.results.zip newResults ++ m)
      (fresh + op.results.length) rest
    (⟨op.kind, newOperands, newResults⟩ :: r.1, r.2)

/-- Embeds `ConvertToReductionOperator` (lines 37-64): allocate one cell per
scalar parameter of the `loop.reduce` block, store the two bare block
parameters into them, clone the non-terminator body operations under the
mapping `(arg0, arg1, arg2) to (elemBuf, accBuf, accBuf)`, then load the
accumulator cell and yield the loaded value.  `fresh` is the first unused
value id; `fresh` and `fresh + 1` become the two cells. -/
def ConvertToReductionOperator {K : Type} (elemParam accParam : Nat)
    (lhloBlock : SourceBlock K) (fresh : Nat) : List (ROp K) :=
  let elemBuf := fresh
  let accBuf := fresh + 1
  let m := [(lhloBlock.arg0, elemBuf), (lhloBlock.arg1, accBuf),
            (lhloBlock.arg2, accBuf)]
  let r := cloneOps m (fresh + 2) lhloBlock.ops.dropLast
  let accResult := r.2.2
  [ROp.alloc elemBuf, ROp.store elemParam elemBuf,
   ROp.alloc accBuf, ROp.store accParam accBuf]
  ++ r.1.map (fun op => ROp.cloned op.kind op.operands op.results)
  ++ [ROp.load accResult accBuf, ROp.reduceReturn accResult]

/-- First value id strictly above everything mentioned in a block; used to
model the freshness of newly created SSA values. -/
def blockFreshBase {K : Type} (blk : SourceBlock K) : Nat :=
  (blk.ops.map (fun op => (op.operands ++ op.results).foldr max 0)).foldr max
    (max blk.arg0 (max blk.arg1 blk.arg2)) + 1

/-- The `xla_lhlo.reduce` operation: operand buffers, rank-0 initial-value
buffers, output buffers, the reducing-dimension attribute and the
combinator body. -/
structure ReduceOp (K : Type) where
  operands : List Buffer
  init_values : List Buffer
  out : List Buffer
  dimensions : List Int
  body : SourceBlock K
  deriving DecidableEq, Repr

/-- The structure emitted by the plain-reduce loop synthesizer: the
partitioned bounds, the initial-value load, whether an outer parallel loop
was created, the store of the reduction result into the output buffer (with
its address), and the operand element load with its reconstructed
coordinates, plus the transplanted reduction-operator block. -/
structure PlainEmission (K : Type) where
  bounds : BoundLists
  initLoad : Nat
  hasOuter : Bool
  outIndices : List IndexVal
  stores : List (Nat × List IndexVal)
  elemLoad : Nat × List (Option IndexVal)
  reduceBody : List (ROp K)
  deriving DecidableEq, Repr

/-- Embeds `ReduceOpConverter::CreateReduceOpInNestedParallelLoops`
(lines 147-213) together with the transplanting call of `matchAndRewrite`:
partition the first operand's axes, load the first initial value, create the
outer loop only when some kept axis exists, store the inner loop's result
into the first output at the outer induction variables (or at a synthesized
constant zero when there is no outer loop), and load the element to reduce
at the interleaved coordinates. -/
def CreatePlainReduceLoops {K : Type} (op : ReduceOp K) : PlainEmission K :=
  let operand := op.operands.headD defaultBuffer
  let bl := partitionDims operand.id op.dimensions operand.shape
  let initBuf := (op.init_values.headD defaultBuffer).id
  let hasOuter := !bl.parallelLower.isEmpty
  let outerIvs := (List.range bl.parallelLower.length).map IndexVal.outerIv
  let innerIvs := (List.range bl.reduceLower.length).map IndexVal.innerIv
  let outIndices := if hasOuter then outerIvs else [IndexVal.constIdx 0]
  let outBuf := (op.out.headD defaultBuffer).id
  let base := blockFreshBase op.body
  { bounds := bl
    initLoad := initBuf
    hasOuter := hasOuter
    outIndices := outIndices
    stores := [(outBuf, outIndices)]
    elemLoad := (operand.id,
      reconstructIndices op.dimensions outerIvs innerIvs operand.shape.length)
    reduceBody := ConvertToReductionOperator base (base + 1) op.body (base + 2) }

/-- Outcome of one `matchAndRewrite` invocation: the pattern declined (IR
left untouched, operation reported unconverted), the operation was fully
replaced by the emitted structure, or control reached undefined behaviour
(reading an absent attribute). -/
inductive PatternOutcome (α : Type) where
  | declined
  | replaced (emitted : α)
  | crashed
  deriving DecidableEq, Repr

/-- Embeds `ReduceOpConverter::matchAndRewrite` (lines 113-125): decline
unless there is exactly one output, otherwise emit the loop nest and replace
the operation. -/
def ReduceOpMatchAndRewrite {K : Type} (op : ReduceOp K) :
    PatternOutcome (PlainEmission K) :=
  if op.out.length ≠ 1 then PatternOutcome.declined
  else PatternOutcome.replaced (CreatePlainReduceLoops op)

/-- Claim C3: for every plain reduction, the coordinates used to load the
operand element are reconstructed by interleaving the outer (kept) and
inner (reduced) induction variables back into original axis order: axis `i`
draws from the inner-loop sequence at the cursor given by the number of
reduced axes before `i` when `i` is reduced, and from the outer-loop
sequence at the cursor given by the number of kept axes before `i`
otherwise. -/
theorem claim3_interleaved_coordinate_reconstruction {K : Type}
    (op : ReduceOp K) :
    (CreatePlainReduceLoops op).elemLoad =
      ((op.operands.headD defaultBuffer).id,
        (List.range (op.operands.headD defaultBuffer).shape.length).map
          (claimIndexAt op.dimensions
            ((List.range (keptAxes op.dimensions
                (op.operands.headD defaultBuffer).shape.length).length).map
              IndexVal.outerIv)
            ((List.range (reducedAxes op.dimensions
                (op.operands.headD defaultBuffer).shape.length).length).map
              IndexVal.innerIv))) := by
  have hbl := partitionDims_eq (op.operands.headD defaultBuffer).id
    op.dimensions (op.operands.headD defaultBuffer).shape
  simp only [CreatePlainReduceLoops, hbl, List.length_map]
  rw [reconstructIndices_eq]

/-- Claim C4: for every plain reduction whose reduced-dimension set covers
every operand axis, no outer parallel loop is produced, and the single
output cell is written exactly once, addressed by a synthesized constant
zero index. -/
theorem claim4_full_reduction_no_outer_loop {K : Type} (op : ReduceOp K)
    (hall : ∀ i, i < (op.operands.headD defaultBuffer).shape.length →
      isReducing op.dimensions i = true) :
    (CreatePlainReduceLoops op).hasOuter = false ∧
    (CreatePlainReduceLoops op).outIndices = [IndexVal.constIdx 0] ∧
    (CreatePlainReduceLoops op).stores =
      [((op.out.headD defaultBuffer).id, [IndexVal.constIdx 0])] := by
  have hkept : keptAxes op.dimensions
      (op.operands.headD defaultBuffer).shape.length = [] := by
    rw [keptAxes, List.filter_eq_nil_iff]
    intro a ha
    simp [hall a (List.mem_range.mp ha)]
  have hbl := partitionDims_eq (op.operands.headD defaultBuffer).id
    op.dimensions (op.operands.headD defaultBuffer).shape
  simp only [CreatePlainReduceLoops, hbl, hkept]
  simp

/-- A concrete one-axis reduction over all dimensions, for the witness. -/
def reduceAllExample : ReduceOp Nat :=
  { operands := [⟨1, [5]⟩]
    init_values := [⟨2, []⟩]
    out := [⟨3, []⟩]
    dimensions := [0]
    body := ⟨10, 11, 12, [⟨0, [10, 11, 12], []⟩, ⟨1, [], []⟩]⟩ }

/-- Witness for C4 at a concrete fully-reduced operation. -/
theorem claim4_witness :
    (∀ i, i < (reduceAllExample.operands.headD defaultBuffer).shape.length →
      isReducing reduceAllExample.dimensions i = true) ∧
    ((CreatePlainReduceLoops reduceAllExample).hasOuter = false ∧
     (CreatePlainReduceLoops reduceAllExample).outIndices =
       [IndexVal.constIdx 0] ∧
     (CreatePlainReduceLoops reduceAllExample).stores =
       [((reduceAllExample.out.headD defaultBuffer).id,
         [IndexVal.constIdx 0])]) :=
  ⟨by decide, claim4_full_reduction_no_outer_loop reduceAllExample (by decide)⟩

/-- Claim C5: a plain reduction whose output count differs from one is
declined: `matchAndRewrite` returns failure before creating any IR, leaving
the operation unconverted for the driver to report. -/
theorem claim5_multi_output_declined {K : Type} (op : ReduceOp K)
    (h : op.out.length ≠ 1) :
    ReduceOpMatchAndRewrite op = PatternOutcome.declined := by
  unfold ReduceOpMatchAndRewrite
  rw [if_pos h]

/-- A concrete two-output reduction, for the C5 witness. -/
def twoOutputExample : ReduceOp Nat :=
  { operands := [⟨1, [4]⟩, ⟨2, [4]⟩]
    init_values := [⟨3, []⟩, ⟨4, []⟩]
    out := [⟨5, []⟩, ⟨6, []⟩]
    dimensions := [0]
    body := ⟨10, 11, 12, [⟨0, [10, 11, 12], []⟩, ⟨1, [], []⟩]⟩ }

/-- Witness for C5 at a concrete two-output operation. -/
theorem claim5_witness :
    twoOutputExample.out.length ≠ 1 ∧
    ReduceOpMatchAndRewrite twoOutputExample = PatternOutcome.declined :=
  ⟨by decide, claim5_multi_output_declined twoOutputExample (by decide)⟩

/-- Claim C10: a plain reduction with exactly one output but additional
operands or initial values still converts — only the output count is
checked — and the emitted loop nest is exactly the one obtained from the
first operand and first initial value alone: the remaining ones are
silently ignored. -/
theorem claim10_extra_operands_ignored {K : Type} (b : Buffer)
    (rest : List Buffer) (i0 : Buffer) (irest : List Buffer) (o : Buffer)
    (dims : List Int) (body : SourceBlock K) :
    ReduceOpMatchAndRewrite
        { operands := b :: rest, init_values := i0 :: irest, out := [o],
          dimensions := dims, body := body } =
      PatternOutcome.replaced (CreatePlainReduceLoops
        { operands := [b], init_values := [i0], out := [o],
          dimensions := dims, body := body }) := by
  rfl

/-- Pointwise relation between a source operation and its clone: the kind is
preserved and every operand that was one of the three source block
parameters (element, accumulator-in, result-out) is remapped onto the
element cell respectively the accumulator cell — result-out onto the same
cell as accumulator-in. -/
def OperandRemap {K : Type} (a0 a1 a2 elemBuf accBuf : Nat)
    (src cl : SrcOp K) : Prop :=
  cl.kind = src.kind ∧
  cl.operands.length = src.operands.length ∧
  ∀ j : Nat,
    (src.operands[j]? = some a0 → cl.operands[j]? = some elemBuf) ∧
    (src.operands[j]? = some a1 → cl.operands[j]? = some accBuf) ∧
    (src.operands[j]? = some a2 → cl.operands[j]? = some accBuf)

/-- Prepending entries whose keys avoid `v` does not change a lookup. -/
lemma lookupOrSelf_append (kvs m : List (Nat × Nat)) (v : Nat)
    (h : ∀ p ∈ kvs, p.1 ≠ v) :
    lookupOrSelf (kvs ++ m) v = lookupOrSelf m v := by
  induction kvs with
  | nil => rfl
  | cons p rest ih =>
    have hp : p.1 ≠ v := h p (List.mem_cons_self p rest)
    simp only [List.cons_append, lookupOrSelf, if_neg hp]
    exact ih (fun q hq => h q (List.mem_cons_of_mem p hq))

/-- The clone loop preserves kinds and remaps the three block parameters
onto the two cells, for any starting mapping that already sends them
there and any body whose operations do not redefine the parameters. -/
lemma cloneOps_remaps {K : Type} (a0 a1 a2 elemBuf accBuf : Nat) :
    ∀ (body : List (SrcOp K)) (m : List (Nat × Nat)) (fresh : Nat),
      lookupOrSelf m a0 = elemBuf →
      lookupOrSelf m a1 = accBuf →
      lookupOrSelf m a2 = accBuf →
      (∀ op ∈ body, a0 ∉ op.results ∧ a1 ∉ op.results ∧ a2 ∉ op.results) →
      List.Forall₂ (OperandRemap a0 a1 a2 elemBuf accBuf) body
        (cloneOps m fresh body).1 := by
  intro body
  induction body with
  | nil => intro m fresh _ _ _ _; exact List.Forall₂.nil
  | cons op rest ih =>
    intro m fresh h0 h1 h2 hres
    have hop := hres op (List.mem_cons_self op rest)
    simp only [cloneOps]
    refine List.Forall₂.cons ?_ ?_
    · refine ⟨rfl, List.length_map op.operands (lookupOrSelf m), ?_⟩
      intro j
      refine ⟨?_, ?_, ?_⟩ <;> intro hj <;>
        simp only [List.getElem?_map, hj, Option.map_some', h0, h1, h2]
    · have hkeys : ∀ p ∈ op.results.zip
          ((List.range op.results.length).map (fun k => fresh + k)),
          ∀ a, a ∉ op.results → p.1 ≠ a := by
        intro p hp a ha hcontra
        exact ha (hcontra ▸ (List.of_mem_zip hp).1)
      have havoid : ∀ (a : Nat), a ∉ op.results →
          lookupOrSelf (op.results.zip
            ((List.range op.results.length).map (fun k => fresh + k)) ++ m) a =
          lookupOrSelf m a := by
        intro a ha
        exact lookupOrSelf_append _ m a (fun p hp => hkeys p hp a ha)
      refine ih _ _ ?_ ?_ ?_ (fun q hq => hres q (List.mem_cons_of_mem op hq))
      · rw [havoid a0 hop.1]; exact h0
      · rw [havoid a1 hop.2.1]; exact h1
      · rw [havoid a2 hop.2.2]; exact h2

/-- Claim C2: the transplanter allocates exactly two fresh scalar cells,
stores the reduction block's two bare parameters into them, clones every
non-terminator operation of the source body with the source's three block
parameters (element, accumulator-in, result-out) remapped onto the element
cell, the accumulator cell and again the accumulator cell — result-out
aliases the storage of accumulator-in — and finally loads the accumulator
cell and yields the loaded value as the reduction's result. -/
theorem claim2_transplanter_cells_and_remap {K : Type}
    (elemParam accParam : Nat) (blk : SourceBlock K) (fresh : Nat)
    (h01 : blk.arg0 ≠ blk.arg1) (h02 : blk.arg0 ≠ blk.arg2)
    (hres : ∀ op ∈ blk.ops.dropLast,
      blk.arg0 ∉ op.results ∧ blk.arg1 ∉ op.results ∧ blk.arg2 ∉ op.results) :
    ∃ (clonedOps : List (SrcOp K)) (accResult : Nat),
      ConvertToReductionOperator elemParam accParam blk fresh =
        [ROp.alloc fresh, ROp.store elemParam fresh,
         ROp.alloc (fresh + 1), ROp.store accParam (fresh + 1)]
        ++ clonedOps.map (fun op => ROp.cloned op.kind op.operands op.results)
        ++ [ROp.load accResult (fresh + 1), ROp.reduceReturn accResult] ∧
      List.Forall₂ (OperandRemap blk.arg0 blk.arg1 blk.arg2 fresh (fresh + 1))
        blk.ops.dropLast clonedOps := by
  refine ⟨(cloneOps [(blk.arg0, fresh), (blk.arg1, fresh + 1),
      (blk.arg2, fresh + 1)] (fresh + 2) blk.ops.dropLast).1,
    (cloneOps [(blk.arg0, fresh), (blk.arg1, fresh + 1),
      (blk.arg2, fresh + 1)] (fresh + 2) blk.ops.dropLast).2.2, rfl, ?_⟩
  refine cloneOps_remaps blk.arg0 blk.arg1 blk.arg2 fresh (fresh + 1)
    blk.ops.dropLast _ (fresh + 2) ?_ ?_ ?_ hres
  · simp [lookupOrSelf]
  · simp only [lookupOrSelf, if_neg h01]
    simp
  · simp only [lookupOrSelf, if_neg h02]
    by_cases h12 : blk.arg1 = blk.arg2 <;> simp [h12]

/-- A concrete combinator body (a maximum-style operation plus terminator),
for the C2 witness. -/
def transplantExample : SourceBlock Nat :=
  ⟨10, 11, 12, [⟨0, [10, 11, 12], []⟩, ⟨1, [], []⟩]⟩

/-- Witness for C2 at a concrete combinator body. -/
theorem claim2_witness :
    (transplantExample.arg0 ≠ transplantExample.arg1 ∧
     transplantExample.arg0 ≠ transplantExample.arg2 ∧
     (∀ op ∈ transplantExample.ops.dropLast,
       transplantExample.arg0 ∉ op.results ∧
       transplantExample.arg1 ∉ op.results ∧
       transplantExample.arg2 ∉ op.results)) ∧
    (∃ (clonedOps : List (SrcOp Nat)) (accResult : Nat),
      ConvertToReductionOperator 18 19 transplantExample 20 =
        [ROp.alloc 20, ROp.store 18 20,
         ROp.alloc (20 + 1), ROp.store 19 (20 + 1)]
        ++ clonedOps.map (fun op => ROp.cloned op.kind op.operands op.results)
        ++ [ROp.load accResult (20 + 1), ROp.reduceReturn accResult] ∧
      List.Forall₂ (OperandRemap transplantExample.arg0 transplantExample.arg1
          transplantExample.arg2 20 (20 + 1))
        transplantExample.ops.dropLast clonedOps) :=
  ⟨⟨by decide, by decide, by decide⟩,
    claim2_transplanter_cells_and_remap 18 19 transplantExample 20
      (by decide) (by decide) (by decide)⟩

/-- Bit width 2^64 of the machine `index` type the emitted arithmetic and
the unsigned comparison operate on. -/
def wordSize : Nat := 2 ^ 64

/-- The literal value of the word size. -/
lemma wordSize_eq : wordSize = 18446744073709551616 := by norm_num [wordSize]

/-- The machine word (bit pattern interpreted unsigned) representing the
integer `x`, e.g. the word a `ConstantIndexOp` of `x` produces. -/
def toUnsigned (x : Int) : Nat := (x % (wordSize : Int)).toNat

/-- Embeds `MulIOp` on the index type: wrapping multiplication. -/
def muli (a b : Nat) : Nat := a * b % wordSize

/-- Embeds `AddIOp` on the index type: wrapping addition. -/
def addi (a b : Nat) : Nat := (a + b) % wordSize

/-- Embeds `SubIOp` on the index type: wrapping subtraction. -/
def subi (a b : Nat) : Nat := toUnsigned ((a : Int) - (b : Int))

/-- Embeds `CmpIOp` with predicate `ult`: unsigned comparison of the words. -/
def cmpiUlt (a b : Nat) : Bool := decide (a < b)

/-- Per-axis address arithmetic of the windowed synthesizer (lines 382-390):
`center = muli(output_iv, stride)`, `offset = subi(window_iv, pad_low)`,
`index = addi(center, offset)`. -/
def windowOperandIndex (outputIv windowIv : Nat) (stride padLow : Int) :
    Nat :=
  addi (muli outputIv (toUnsigned stride)) (subi windowIv (toUnsigned padLow))

/-- The mathematical (unbounded) operand index of one axis:
`o * stride + (i - pad_low)`. -/
def mathIndex (outputIv windowIv : Nat) (stride padLow : Int) : Int :=
  (outputIv : Int) * stride + ((windowIv : Int) - padLow)

/-- The cast of `toUnsigned` back to the integers is reduction modulo the
word size. -/
lemma toUnsigned_cast (x : Int) :
    ((toUnsigned x : Nat) : Int) = x % (wordSize : Int) := by
  unfold toUnsigned
  refine Int.toNat_of_nonneg (Int.emod_nonneg x ?_)
  rw [wordSize_eq]
  norm_num

/-- Residues modulo the word size are congruent to the original integer. -/
lemma emod_modEq_self (x : Int) :
    Int.ModEq (wordSize : Int) (x % (wordSize : Int)) x :=
  Int.emod_emod_of_dvd x dvd_rfl

/-- The emitted wrapping arithmetic computes exactly the machine word of
the mathematical per-axis index. -/
lemma windowOperandIndex_eq (ov iv : Nat) (s p : Int) :
    windowOperandIndex ov iv s p = toUnsigned (mathIndex ov iv s p) := by
  apply @Nat.cast_injective Int
  rw [toUnsigned_cast]
  unfold windowOperandIndex addi muli subi mathIndex
  push_cast [toUnsigned_cast]
  have h1 : Int.ModEq (wordSize : Int)
      ((ov : Int) * (s % (wordSize : Int)) % (wordSize : Int))
      ((ov : Int) * s) :=
    (emod_modEq_self _).trans (Int.ModEq.mul_left _ (emod_modEq_self s))
  have h2 : Int.ModEq (wordSize : Int)
      (((iv : Int) - p % (wordSize : Int)) % (wordSize : Int))
      ((iv : Int) - p) :=
    (emod_modEq_self _).trans ((Int.ModEq.refl (iv : Int)).sub
      (emod_modEq_self p))
  exact h1.add h2

/-- The single unsigned comparison against the extent equals the two-sided
range check, for indices and extents within the signed word range: a
negative index wraps to a word at least `2 ^ 63`, above any admissible
extent. -/
lemma toUnsigned_lt_iff (m : Int) (e : Nat) (he : (e : Int) ≤ 2 ^ 63)
    (hlo : -(2 ^ 63) ≤ m) (hhi : m < 2 ^ 63) :
    (toUnsigned m < e) ↔ (0 ≤ m ∧ m < (e : Int)) := by
  unfold toUnsigned
  rw [wordSize_eq] at *
  norm_num at *
  omega

/-- The list of machine operand indices the emitted inner-loop body
computes, one per axis (`operand_indices` in the source). -/
def windowOperandIndices (outputIvs windowIvs : List Nat)
    (strides padLows : List Int) (rank : Nat) : List Nat :=
  (List.range rank).map (fun i =>
    windowOperandIndex (outputIvs.getD i 0) (windowIvs.getD i 0)
      (strides.getD i 0) (padLows.getD i 0))

/-- The conjunctive in-bounds flag the emitted body accumulates
(lines 375-401): starting from the constant `true`, AND in the unsigned
comparison of each axis's machine index against that axis's extent. -/
def windowInBounds (outputIvs windowIvs : List Nat)
    (strides padLows : List Int) (extents : List Nat) (rank : Nat) : Bool :=
  (List.range rank).foldl
    (fun acc i => acc &&
      cmpiUlt
        (windowOperandIndex (outputIvs.getD i 0) (windowIvs.getD i 0)
          (strides.getD i 0) (padLows.getD i 0))
        (extents.getD i 0))
    true

/-- The value handed to the reduction combinator: the operand element
loaded at the computed indices, or the neutral (initial) value. -/
inductive FedValue where
  | loaded (buf : Nat) (indices : List Nat)
  | neutral
  deriving DecidableEq, Repr

/-- The `loop.if` select of the emitted body (lines 403-416): load the
operand at the computed coordinates when in bounds, otherwise yield the
window loop's initial (neutral) value. -/
def windowFedValue (operandBuf : Nat) (outputIvs windowIvs : List Nat)
    (strides padLows : List Int) (extents : List Nat) (rank : Nat) :
    FedValue :=
  if windowInBounds outputIvs windowIvs strides padLows extents rank then
    FedValue.loaded operandBuf
      (windowOperandIndices outputIvs windowIvs strides padLows rank)
  else FedValue.neutral

/-- A left fold of boolean conjunction is the `all` of the list. -/
lemma foldl_and_eq_all {α : Type} (f : α → Bool) :
    ∀ (l : List α) (b : Bool),
      l.foldl (fun acc x => acc && f x) b = (b && l.all f) := by
  intro l
  induction l with
  | nil => intro b; simp
  | cons x xs ih => intro b; simp [ih, Bool.and_assoc]

/-- Claim C1: for every output coordinate and window element, the emitted
code computes per axis the machine word of the operand index
`o * stride + i - pad_low`; the in-bounds predicate is the conjunction over
the axes of the unsigned comparison of that word against the operand
extent, which (within the signed word range) equals the two-sided check
`0 <= index < extent`; and whenever the predicate is false the value fed
to the combinator is the neutral value, never a loaded element. -/
theorem claim1_window_bounds_semantics (operandBuf : Nat)
    (outputIvs windowIvs : List Nat) (strides padLows : List Int)
    (extents : List Nat) (rank : Nat)
    (hext : ∀ i, i < rank → ((extents.getD i 0 : Nat) : Int) ≤ 2 ^ 63)
    (hlo : ∀ i, i < rank → -(2 ^ 63) ≤ mathIndex (outputIvs.getD i 0)
      (windowIvs.getD i 0) (strides.getD i 0) (padLows.getD i 0))
    (hhi : ∀ i, i < rank → mathIndex (outputIvs.getD i 0)
      (windowIvs.getD i 0) (strides.getD i 0) (padLows.getD i 0) < 2 ^ 63) :
    windowOperandIndices outputIvs windowIvs strides padLows rank =
      (List.range rank).map (fun i => toUnsigned (mathIndex
        (outputIvs.getD i 0) (windowIvs.getD i 0) (strides.getD i 0)
        (padLows.getD i 0))) ∧
    (windowInBounds outputIvs windowIvs strides padLows extents rank = true ↔
      ∀ i, i < rank →
        0 ≤ mathIndex (outputIvs.getD i 0) (windowIvs.getD i 0)
          (strides.getD i 0) (padLows.getD i 0) ∧
        mathIndex (outputIvs.getD i 0) (windowIvs.getD i 0)
          (strides.getD i 0) (padLows.getD i 0) <
          ((extents.getD i 0 : Nat) : Int)) ∧
    (windowInBounds outputIvs windowIvs strides padLows extents rank =
        false →
      windowFedValue operandBuf outputIvs windowIvs strides padLows extents
        rank = FedValue.neutral) := by
  refine ⟨?_, ?_, ?_⟩
  · unfold windowOperandIndices
    exact List.map_congr_left (fun i _ => windowOperandIndex_eq _ _ _ _)
  · unfold windowInBounds
    rw [foldl_and_eq_all, Bool.true_and, List.all_eq_true]
    constructor
    · intro h i hi
      have := h i (List.mem_range.mpr hi)
      rw [windowOperandIndex_eq, cmpiUlt, decide_eq_true_iff,
        toUnsigned_lt_iff _ _ (hext i hi) (hlo i hi) (hhi i hi)] at this
      exact this
    · intro h i hi
      have hi' := List.mem_range.mp hi
      rw [windowOperandIndex_eq, cmpiUlt, decide_eq_true_iff,
        toUnsigned_lt_iff _ _ (hext i hi') (hlo i hi') (hhi i hi')]
      exact h i hi'
  · intro h
    simp [windowFedValue, h]

/-- Witness for C1 at a concrete out-of-bounds window element
(axis 0 index is `0 * 2 + 0 - 1 = -1`, so the neutral value is fed). -/
theorem claim1_witness :
    ((∀ i, i < 2 → (([4, 4].getD i 0 : Nat) : Int) ≤ 2 ^ 63) ∧
     (∀ i, i < 2 → -(2 ^ 63) ≤ mathIndex ([0, 0].getD i 0)
       ([0, 2].getD i 0) ([2, 2].getD i 0) ([1, 0].getD i 0)) ∧
     (∀ i, i < 2 → mathIndex ([0, 0].getD i 0) ([0, 2].getD i 0)
       ([2, 2].getD i 0) ([1, 0].getD i 0) < 2 ^ 63)) ∧
    (windowOperandIndices [0, 0] [0, 2] [2, 2] [1, 0] 2 =
      (List.range 2).map (fun i => toUnsigned (mathIndex ([0, 0].getD i 0)
        ([0, 2].getD i 0) ([2, 2].getD i 0) ([1, 0].getD i 0))) ∧
    (windowInBounds [0, 0] [0, 2] [2, 2] [1, 0] [4, 4] 2 = true ↔
      ∀ i, i < 2 →
        0 ≤ mathIndex ([0, 0].getD i 0) ([0, 2].getD i 0)
          ([2, 2].getD i 0) ([1, 0].getD i 0) ∧
        mathIndex ([0, 0].getD i 0) ([0, 2].getD i 0) ([2, 2].getD i 0)
          ([1, 0].getD i 0) < (([4, 4].getD i 0 : Nat) : Int)) ∧
    (windowInBounds [0, 0] [0, 2] [2, 2] [1, 0] [4, 4] 2 = false →
      windowFedValue 7 [0, 0] [0, 2] [2, 2] [1, 0] [4, 4] 2 =
        FedValue.neutral)) :=
  ⟨⟨by decide, by decide, by decide⟩,
    claim1_window_bounds_semantics 7 [0, 0] [0, 2] [2, 2] [1, 0] [4, 4] 2
      (by decide) (by decide) (by decide)⟩

/-- A diagnostic the windowed converter can attach to the operation. -/
inductive Diag where
  | errNoWindowStrides
  | errNoPadding
  | remarkDilationsIgnored
  deriving DecidableEq, Repr

/-- Whether a diagnostic is an operator-level error (`emitOpError`) rather
than a non-fatal remark (`emitRemark`). -/
def Diag.isError : Diag → Bool
  | Diag.errNoWindowStrides => true
  | Diag.errNoPadding => true
  | Diag.remarkDilationsIgnored => false

/-- The `xla_lhlo.reduce_window` operation: buffers, the window attributes
(strides, padding and dilations being optional attributes), and the
combinator body. -/
structure ReduceWindowOp (K : Type) where
  operand : Buffer
  init_value : Buffer
  out : Buffer
  window_dimensions : List Int
  window_strides : Option (List Int)
  padding : Option (List (Int × Int))
  base_dilations : Option (List Int)
  window_dilations : Option (List Int)
  body : SourceBlock K
  deriving DecidableEq, Repr

/-- The structure emitted by the windowed-reduce synthesizer: the loaded
neutral value, the output-loop upper bounds (from the output shape), the
window-loop upper bounds (the window dimensions), the output store, and the
data feeding the per-axis index arithmetic (consumed strides and pad-lows,
operand buffer and shape), plus the transplanted reduction operator. -/
structure WindowEmission (K : Type) where
  initLoad : Nat
  outputUpper : List Bound
  windowUpper : List Int
  outStore : Nat
  strides : List Int
  padLows : List Int
  operandLoad : Nat
  operandShape : List Int
  reduceBody : List (ROp K)
  deriving DecidableEq, Repr

/-- Embeds `ReduceWindowOpConverter::matchAndRewrite` together with its two
helpers (lines 281-417).  The loop construction and the diagnostics
(missing strides, missing padding, dilations-ignored remark) happen
unconditionally; afterwards the converter reads `window_strides().getValue()`
and `padding().getValue()`, which on an absent attribute is a read of an
absent `Optional` — modelled as `PatternOutcome.crashed`.  No code path
returns failure: the pattern never declines. -/
def ReduceWindowMatchAndRewrite {K : Type} (op : ReduceWindowOp K) :
    List Diag × PatternOutcome (WindowEmission K) :=
  let diags :=
    (if op.window_strides = none then [Diag.errNoWindowStrides] else []) ++
    (if op.padding = none then [Diag.errNoPadding] else []) ++
    (if op.base_dilations.isSome || op.window_dilations.isSome then
      [Diag.remarkDilationsIgnored] else [])
  match op.window_strides, op.padding with
  | some ws, some pad =>
    let base := blockFreshBase op.body
    (diags, PatternOutcome.replaced
      { initLoad := op.init_value.id
        outputUpper := (List.range op.out.shape.length).map (fun i =>
          GetStaticOrDynamicDim op.out.id i (op.out.shape.getD i 0))
        windowUpper := op.window_dimensions
        outStore := op.out.id
        strides := ws
        padLows := pad.map Prod.fst
        operandLoad := op.operand.id
        operandShape := op.operand.shape
        reduceBody := ConvertToReductionOperator base (base + 1) op.body
          (base + 2) })
  | _, _ => (diags, PatternOutcome.crashed)

/-- Claim C7: a windowed reduction lacking the strides or the padding
attribute receives an operator-level diagnostic, but the converter does not
abort there: it never declines the pattern, and checks (and reports) the
remaining attribute conditions past the first diagnostic. -/
theorem claim7_missing_attribute_diagnosed_then_proceeds {K : Type}
    (op : ReduceWindowOp K) :
    (Diag.errNoWindowStrides ∈
        (ReduceWindowMatchAndRewrite
          { op with window_strides := none }).1 ∧
      (ReduceWindowMatchAndRewrite { op with window_strides := none }).2 ≠
        PatternOutcome.declined) ∧
    (Diag.errNoPadding ∈
        (ReduceWindowMatchAndRewrite { op with padding := none }).1 ∧
      (ReduceWindowMatchAndRewrite { op with padding := none }).2 ≠
        PatternOutcome.declined) ∧
    (Diag.errNoWindowStrides ∈
        (ReduceWindowMatchAndRewrite
          { op with window_strides := none, padding := none }).1 ∧
      Diag.errNoPadding ∈
        (ReduceWindowMatchAndRewrite
          { op with window_strides := none, padding := none }).1) := by
  refine ⟨⟨?_, ?_⟩, ⟨?_, ?_⟩, ?_, ?_⟩ <;>
    cases hs : op.window_strides <;> cases hp : op.padding <;>
      simp [ReduceWindowMatchAndRewrite, hs, hp]

/-- A concrete windowed reduction lacking the strides attribute. -/
def missingStridesExample : ReduceWindowOp Nat :=
  { operand := ⟨1, [4, 4]⟩
    init_value := ⟨2, []⟩
    out := ⟨3, [1, 1]⟩
    window_dimensions := [3, 3]
    window_strides := none
    padding := some [(0, 1), (0, 1)]
    base_dilations := none
    window_dilations := none
    body := ⟨10, 11, 12, [⟨0, [10, 11, 12], []⟩, ⟨1, [], []⟩]⟩ }

/-- Claim C6 is violated by the code: on a windowed reduction without the
strides attribute the converter emits the diagnostic and then proceeds into
the read of the absent attribute (undefined behaviour) — it does not
decline; there is no declining path at all in the windowed converter. -/
theorem claim6_missing_strides_crashes_never_declines :
    ReduceWindowMatchAndRewrite missingStridesExample =
      ([Diag.errNoWindowStrides], PatternOutcome.crashed) ∧
    (ReduceWindowMatchAndRewrite missingStridesExample).2 ≠
      PatternOutcome.declined := by
  refine ⟨rfl, ?_⟩
  intro h
  exact absurd h (by decide)

/-- Claim C9: dilation attributes produce a non-fatal remark and have no
effect on the conversion outcome — the emitted loops and index arithmetic
are those of the dilation-free operation. -/
theorem claim9_dilations_remarked_and_ignored {K : Type}
    (op : ReduceWindowOp K) (bd wd : List Int) (wdo : Option (List Int)) :
    ((ReduceWindowMatchAndRewrite
        { op with base_dilations := some bd, window_dilations := wdo }).2 =
      (ReduceWindowMatchAndRewrite
        { op with base_dilations := none, window_dilations := none }).2) ∧
    Diag.remarkDilationsIgnored ∈
      (ReduceWindowMatchAndRewrite
        { op with base_dilations := some bd, window_dilations := wdo }).1 ∧
    ((ReduceWindowMatchAndRewrite
        { op with base_dilations := none, window_dilations := some wd }).2 =
      (ReduceWindowMatchAndRewrite
        { op with base_dilations := none, window_dilations := none }).2) ∧
    Diag.remarkDilationsIgnored ∈
      (ReduceWindowMatchAndRewrite
        { op with base_dilations := none, window_dilations := some wd }).1 ∧
    Diag.isError Diag.remarkDilationsIgnored = false := by
  refine ⟨?_, ?_, ?_, ?_, rfl⟩ <;>
    cases hs : op.window_strides <;> cases hp : op.padding <;>
      simp [ReduceWindowMatchAndRewrite, hs, hp]

/-- A concrete well-formed windowed reduction, used to instantiate the
attribute-handling results. -/
def windowExample : ReduceWindowOp Nat :=
  { operand := ⟨1, [4, 4]⟩
    init_value := ⟨2, []⟩
    out := ⟨3, [1, 1]⟩
    window_dimensions := [3, 3]
    window_strides := some [2, 2]
    padding := some [(0, 1), (0, 1)]
    base_dilations := none
    window_dilations := none
    body := ⟨10, 11, 12, [⟨0, [10, 11, 12], []⟩, ⟨1, [], []⟩]⟩ }

/-- Witness for C7 at a concrete windowed reduction. -/
theorem claim7_witness :
    (Diag.errNoWindowStrides ∈
        (ReduceWindowMatchAndRewrite
          { windowExample with window_strides := none }).1 ∧
      (ReduceWindowMatchAndRewrite
        { windowExample with window_strides := none }).2 ≠
        PatternOutcome.declined) ∧
    (Diag.errNoPadding ∈
        (ReduceWindowMatchAndRewrite
          { windowExample with padding := none }).1 ∧
      (ReduceWindowMatchAndRewrite
        { windowExample with padding := none }).2 ≠
        PatternOutcome.declined) ∧
    (Diag.errNoWindowStrides ∈
        (ReduceWindowMatchAndRewrite
          { windowExample with window_strides := none, padding := none }).1 ∧
      Diag.errNoPadding ∈
        (ReduceWindowMatchAndRewrite
          { windowExample with window_strides := none, padding := none }).1) :=
  claim7_missing_attribute_diagnosed_then_proceeds windowExample

/-- Witness for C9 at a concrete windowed reduction with dilations. -/
theorem claim9_witness :
    ((ReduceWindowMatchAndRewrite
        { windowExample with base_dilations := some [1, 1], window_dilations := some [1, 1] }).2 =
      (ReduceWindowMatchAndRewrite
        { windowExample with base_dilations := none, window_dilations := none }).2) ∧
    Diag.remarkDilationsIgnored ∈
      (ReduceWindowMatchAndRewrite
        { windowExample with base_dilations := some [1, 1], window_dilations := some [1, 1] }).1 ∧
    ((ReduceWindowMatchAndRewrite
        { windowExample with base_dilations := none, window_dilations := some [1, 1] }).2 =
      (ReduceWindowMatchAndRewrite
        { windowExample with base_dilations := none, window_dilations := none }).2) ∧
    Diag.remarkDilationsIgnored ∈
      (ReduceWindowMatchAndRewrite
        { windowExample with base_dilations := none, window_dilations := some [1, 1] }).1 ∧
    Diag.isError Diag.remarkDilationsIgnored = false :=
  claim9_dilations_remarked_and_ignored windowExample [1, 1] [1, 1]
    (some [1, 1])
